import Mathlib

/-!
Verification of the declarative encode/decode subsystem of the
`go-logicboxes` client library: the tag-driven parameter encoders
(`Detail.URLValues`, `Criteria.URLValues`, `entityAttributes.URLValues`),
the merge-with-previous operation (`Detail.mergePrevious`), and the
response-envelope decoders (`contact.Search`, `customer.Search`,
`customer.Modify`).

Go records are embedded as Lean structures; the reflective field walks of
the source are embedded as functions over an explicit per-field view
(`FieldView`) listing each struct field's name, `query` tag, `validate`
rules and value, in declaration order, exactly as `reflect` enumerates
them.  Goroutine-per-field loops in the source have no cross-field
dependencies and are embedded as the equivalent sequential walks.
-/

namespace Logicboxes

/-- Values of Go struct fields, restricted to the kinds the encoders
inspect: `reflect.String`, `reflect.Bool`, slices of string-kinded
elements, and everything else (`vraw`), which every walk in the source
skips.  `vraw` carries the raw wire text of the field and its
`reflect.Value.IsZero` flag. -/
inductive GoValue where
  | vstr (s : String)
  | vbool (b : Bool)
  | vstrs (ss : List String)
  | vraw (raw : String) (zero : Bool)
deriving DecidableEq, Repr

/-- The `reflect.Kind` classification used by the field walks. -/
inductive GoKind where
  | str
  | boolean
  | strSlice
  | wrapped
deriving DecidableEq, Repr

def GoValue.kind : GoValue → GoKind
  | .vstr _ => .str
  | .vbool _ => .boolean
  | .vstrs _ => .strSlice
  | .vraw _ _ => .wrapped

/-- `reflect.Value.IsZero`. -/
def GoValue.isZero : GoValue → Bool
  | .vstr s => s == ""
  | .vbool b => !b
  | .vstrs ss => ss.isEmpty
  | .vraw _ z => z

/-- The string content of a string-kinded value (`reflect.Value.String`). -/
def GoValue.asString : GoValue → String
  | .vstr s => s
  | _ => ""

/-- `strings.HasSuffix`. -/
def goHasSuffix (s suffix : String) : Bool :=
  suffix.data.isSuffixOf s.data

/-- `strings.TrimSuffix`. -/
def goTrimSuffix (s suffix : String) : String :=
  if goHasSuffix s suffix then ⟨s.data.take (s.data.length - suffix.data.length)⟩ else s

/-- `strings.ToLower` (ASCII, which is all the source feeds it). -/
def goToLower (s : String) : String :=
  ⟨s.data.map Char.toLower⟩

/-- `strconv.FormatBool`. -/
def goFormatBool (b : Bool) : String :=
  if b then "true" else "false"

/-- `s` consists of one or more ASCII digits. -/
def isDigits (s : String) : Bool :=
  !s.data.isEmpty && s.data.all Char.isDigit

/-- Models the third-party `go-playground/validator` `email` rule
(simplified to: one `@`, non-empty local part, domain containing an
interior dot). -/
def isEmailLike (s : String) : Bool :=
  let cs := s.data
  let lp := cs.takeWhile (· != '@')
  let rest := cs.dropWhile (· != '@')
  match rest with
  | '@' :: dom =>
      !lp.isEmpty && !dom.isEmpty && !dom.contains '@' &&
        dom.contains '.' && dom.head? != some '.' && dom.getLast? != some '.'
  | _ => false

/-- Models the third-party validator `iso3166_1_alpha2` rule (simplified
to: exactly two uppercase ASCII letters). -/
def isCountryAlpha2 (s : String) : Bool :=
  s.data.length == 2 && s.data.all Char.isUpper

/-- One clause of a `validate:"..."` struct tag, as interpreted by the
third-party `go-playground/validator` library. `skip` is `validate:"-"`. -/
inductive VRule where
  | required
  | email
  | number
  | iso3166alpha2
  | minLen (n : Nat)
  | maxLen (n : Nat)
  | lenEq (n : Nat)
  | omitempty
  | skip
deriving DecidableEq, Repr

/-- Whether a single validator rule holds of a field value (`omitempty`
and `skip` are handled in `rulesPass` / always hold pointwise). -/
def ruleHolds : VRule → GoValue → Bool
  | .required, v => !v.isZero
  | .email, v => isEmailLike v.asString
  | .number, v => isDigits v.asString
  | .iso3166alpha2, v => isCountryAlpha2 v.asString
  | .minLen n, v => n ≤ v.asString.data.length
  | .maxLen n, v => v.asString.data.length ≤ n
  | .lenEq n, v => v.asString.data.length == n
  | .omitempty, _ => true
  | .skip, _ => true

/-- Models the third-party validator's evaluation of one field: with
`omitempty` a zero value passes outright; otherwise every rule of the
tag must hold. -/
def rulesPass (rules : List VRule) (v : GoValue) : Bool :=
  if VRule.omitempty ∈ rules ∧ v.isZero = true then true
  else rules.all (ruleHolds · v)

/-- The reflective, per-field view of a Go struct field: Go field name,
`query` struct tag, `validate` struct tag, and current value. -/
structure FieldView where
  name : String
  tag : String
  rules : List VRule
  val : GoValue
deriving DecidableEq, Repr

/-- Models `validator.New().Struct(c)`: the names of the fields whose
rule set fails, in declaration order (the library collects every failing
field into one `ValidationErrors` value). Empty iff validation passes. -/
def failingFields (fs : List FieldView) : List String :=
  fs.filterMap (fun f => if rulesPass f.rules f.val then none else some f.name)

/-- Errors produced by the encoders: a `validator.ValidationErrors`
naming each failing field, or the hand-built
`errors.New(strings.ToLower(name) + " must not empty")` of contact's
`Detail.URLValues` (carrying the lower-cased field name). -/
inductive EncodeError where
  | invalidFields (names : List String)
  | mustNotEmpty (lowerName : String)
deriving DecidableEq, Repr

/-- The field walk of contact's `Detail.URLValues`
(src/unnamed/part_001:764-778): skip untagged or non-string fields; a
zero value is skipped when the tag ends in `,optional` and otherwise
aborts with a "must not empty" error; a non-zero value is added under
the tag with the `,optional` suffix trimmed. -/
def detailFieldWalk : List FieldView → Except EncodeError (List (String × String))
  | [] => .ok []
  | f :: fs =>
    if f.tag == "" || f.tag == "-" || f.val.kind != .str then
      detailFieldWalk fs
    else if f.val.isZero then
      if goHasSuffix f.tag ",optional" then detailFieldWalk fs
      else .error (.mustNotEmpty (goToLower f.name))
    else
      match detailFieldWalk fs with
      | .error e => .error e
      | .ok rest => .ok ((goTrimSuffix f.tag ",optional", f.val.asString) :: rest)

/-- The field walk of customer's `Detail.URLValues`
(src/customer/types.go:193-210): only string-kinded tagged fields are
emitted; a zero value is skipped when the tag ends in `omitempty`, and
otherwise emitted (even though empty) under the trimmed tag.  This walk
never fails. -/
def customerFieldWalk : List FieldView → List (String × String)
  | [] => []
  | f :: fs =>
    if f.tag != "" && f.tag != "-" && f.val.kind == .str then
      if goHasSuffix f.tag "omitempty" && f.val.isZero then customerFieldWalk fs
      else (goTrimSuffix f.tag ",omitempty", f.val.asString) :: customerFieldWalk fs
    else customerFieldWalk fs

/-- The field walk of contact's `Criteria.URLValues`
(src/unnamed/part_001:680-725): skip untagged fields and zero optional
fields; strings, booleans and slices of string-kinded elements are
emitted under the trimmed tag (one pair per slice element); any other
kind falls into the `default` arm and is skipped. -/
def criteriaFieldWalk : List FieldView → List (String × String)
  | [] => []
  | f :: fs =>
    if (f.tag == "" || f.tag == "-") || (f.val.isZero && goHasSuffix f.tag ",optional") then
      criteriaFieldWalk fs
    else
      match f.val with
      | .vstr s => (goTrimSuffix f.tag ",optional", s) :: criteriaFieldWalk fs
      | .vbool b => (goTrimSuffix f.tag ",optional", goFormatBool b) :: criteriaFieldWalk fs
      | .vstrs ss => (ss.map fun s => (goTrimSuffix f.tag ",optional", s)) ++ criteriaFieldWalk fs
      | .vraw _ _ => criteriaFieldWalk fs

/-- contact's `Criteria.URLValues` (src/unnamed/part_001:668-729):
validate, then walk the fields. On validation failure the source returns
`nil, err`. -/
def criteriaURLValues (fs : List FieldView) : Except EncodeError (List (String × String)) :=
  match failingFields fs with
  | [] => .ok (criteriaFieldWalk fs)
  | e :: es => .error (.invalidFields (e :: es))

/-- contact's `Detail` record (src/unnamed/part_001:570-602).  String
fields keep their Go types (named string types such as `Type` have
`reflect.Kind` String); the `Type` field is spelled `typ` because `Type`
is reserved in Lean.  The `core` wrapper fields (`JSONUint16`,
`JSONTime`, `JSONTimestamp`, `JSONBool`, `WHOISValidity`) are not under
src/ — modelled from the spec as tolerant wrappers around the raw wire
text; their kind is not String so every field walk skips them. -/
structure ContactDetail where
  ID : String := ""
  typ : String := ""
  CustomerID : String := ""
  StatusSystem : String := ""
  StatusRegistry : String := ""
  ParentKey : String := ""
  Name : String := ""
  Email : String := ""
  Company : String := ""
  Address : String := ""
  AddressLine2 : String := ""
  AddressLine3 : String := ""
  City : String := ""
  State : String := ""
  CountryCode : String := ""
  Zipcode : String := ""
  PhoneCountryCode : String := ""
  Phone : String := ""
  FaxCountryCode : String := ""
  Fax : String := ""
  ClassName : String := ""
  ClassKey : String := ""
  EntityActionID : String := ""
  ActionCompleted : String := ""
  ContactID : String := ""
  EntityTypeID : String := ""
  Description : String := ""
  TimeCreation : String := ""
  TimeCreationRegistry : String := ""
  IsDesignatedAgent : String := ""
  WhoisValidity : String := ""
deriving DecidableEq, Repr

/-- The reflective field view of `ContactDetail`, in declaration order,
with each field's `query` tag and `validate` rules transcribed from the
struct tags (src/unnamed/part_001:570-602). -/
def ContactDetail.fields (c : ContactDetail) : List FieldView :=
  [ ⟨"ID", "-", [], .vstr c.ID⟩,
    ⟨"Type", "type", [.required], .vstr c.typ⟩,
    ⟨"CustomerID", "customer-id", [.required, .number], .vstr c.CustomerID⟩,
    ⟨"StatusSystem", "-", [], .vstr c.StatusSystem⟩,
    ⟨"StatusRegistry", "-", [], .vstr c.StatusRegistry⟩,
    ⟨"ParentKey", "-", [], .vstr c.ParentKey⟩,
    ⟨"Name", "name", [.required, .maxLen 255], .vstr c.Name⟩,
    ⟨"Email", "email", [.required, .email], .vstr c.Email⟩,
    ⟨"Company", "company", [.required, .maxLen 255], .vstr c.Company⟩,
    ⟨"Address", "address-line-1", [.required, .maxLen 64], .vstr c.Address⟩,
    ⟨"AddressLine2", "address-line-2,optional", [.skip], .vstr c.AddressLine2⟩,
    ⟨"AddressLine3", "address-line-3,optional", [.skip], .vstr c.AddressLine3⟩,
    ⟨"City", "city", [.required, .maxLen 64], .vstr c.City⟩,
    ⟨"State", "state,optional", [.omitempty, .maxLen 64], .vstr c.State⟩,
    ⟨"CountryCode", "country", [.required, .iso3166alpha2], .vstr c.CountryCode⟩,
    ⟨"Zipcode", "zipcode", [.required, .maxLen 16], .vstr c.Zipcode⟩,
    ⟨"PhoneCountryCode", "phone-cc", [.required, .minLen 1, .maxLen 3], .vstr c.PhoneCountryCode⟩,
    ⟨"Phone", "phone", [.required, .minLen 4, .maxLen 12], .vstr c.Phone⟩,
    ⟨"FaxCountryCode", "fax-cc,optional", [.omitempty, .minLen 1, .maxLen 3], .vstr c.FaxCountryCode⟩,
    ⟨"Fax", "fax,optional", [.omitempty, .minLen 4, .maxLen 12], .vstr c.Fax⟩,
    ⟨"ClassName", "-", [], .vstr c.ClassName⟩,
    ⟨"ClassKey", "-", [], .vstr c.ClassKey⟩,
    ⟨"EntityActionID", "-", [], .vstr c.EntityActionID⟩,
    ⟨"ActionCompleted", "-", [], .vraw c.ActionCompleted (c.ActionCompleted == "")⟩,
    ⟨"ContactID", "-", [], .vstr c.ContactID⟩,
    ⟨"EntityTypeID", "-", [], .vstr c.EntityTypeID⟩,
    ⟨"Description", "-", [], .vstr c.Description⟩,
    ⟨"TimeCreation", "-", [.skip], .vraw c.TimeCreation (c.TimeCreation == "")⟩,
    ⟨"TimeCreationRegistry", "-", [.skip], .vraw c.TimeCreationRegistry (c.TimeCreationRegistry == "")⟩,
    ⟨"IsDesignatedAgent", "-", [.skip], .vraw c.IsDesignatedAgent (c.IsDesignatedAgent == "")⟩,
    ⟨"WhoisValidity", "-", [.skip], .vraw c.WhoisValidity (c.WhoisValidity == "")⟩ ]

/-- contact's `Detail.URLValues` (src/unnamed/part_001:754-781): run the
validator over the whole record, then walk the fields; on validation
failure the source returns `nil, err`. -/
def ContactDetail.URLValues (c : ContactDetail) : Except EncodeError (List (String × String)) :=
  match failingFields c.fields with
  | [] => detailFieldWalk c.fields
  | e :: es => .error (.invalidFields (e :: es))

/-- A JSON value as the decoders see it.  Numbers, booleans and `null`
are kept as raw text (`lit`), mirroring how the source holds undecoded
fragments in `core.JSONBytes`. -/
inductive Json where
  | str (s : String)
  | lit (raw : String)
  | arr (elems : List Json)
  | obj (members : List (String × Json))

/-- Modelled from the spec: `core.JSONBytes` (not under src/) carries the
raw wire text of a fragment, which the decoders feed to `strconv.Atoi`
for bookkeeping keys; for a JSON string that text is the unquoted
content (the spec's "parse its value as an integer" on bodies such as
`recsindb`).  Composite values are rendered as `""`, which — like their
real bracketed text — never parses as an integer. -/
def Json.rawText : Json → String
  | .str s => s
  | .lit raw => raw
  | .arr _ => ""
  | .obj _ => ""

/-- Whitespace skipping for the JSON reader. -/
def skipWs (cs : List Char) : List Char :=
  cs.dropWhile fun c => c == ' ' || c == '\n' || c == '\t' || c == '\r'

/-- Read the remainder of a JSON string literal (opening quote already
consumed).  Escape sequences are not needed by any body in this
development and make the reader fail. -/
def readStringLit : List Char → Option (String × List Char)
  | [] => none
  | c :: cs =>
    if c == '"' then some ("", cs)
    else if c == '\\' then none
    else match readStringLit cs with
      | some (s, rest) => some (⟨c :: s.data⟩, rest)
      | none => none

/-- Characters allowed in an unquoted JSON token (numbers, `true`,
`false`, `null`). -/
def isLitChar (c : Char) : Bool :=
  c.isAlphanum || c == '-' || c == '+' || c == '.'

mutual

/-- Fuel-driven JSON reader: one value. -/
def readVal : Nat → List Char → Option (Json × List Char)
  | 0, _ => none
  | fuel + 1, cs =>
    match skipWs cs with
    | '"' :: rest =>
      match readStringLit rest with
      | some (s, r) => some (.str s, r)
      | none => none
    | '{' :: rest =>
      match skipWs rest with
      | '}' :: r2 => some (.obj [], r2)
      | _ => match readMembers fuel rest with
        | some (ms, r2) => some (.obj ms, r2)
        | none => none
    | '[' :: rest =>
      match skipWs rest with
      | ']' :: r2 => some (.arr [], r2)
      | _ => match readElems fuel rest with
        | some (es, r2) => some (.arr es, r2)
        | none => none
    | other =>
      let tok := other.takeWhile isLitChar
      if tok.isEmpty then none else some (.lit ⟨tok⟩, other.drop tok.length)

/-- Fuel-driven JSON reader: one or more `"key": value` members,
followed by `}`. -/
def readMembers : Nat → List Char → Option (List (String × Json) × List Char)
  | 0, _ => none
  | fuel + 1, cs =>
    match skipWs cs with
    | '"' :: rest =>
      match readStringLit rest with
      | none => none
      | some (key, r1) =>
        match skipWs r1 with
        | ':' :: r2 =>
          match readVal fuel r2 with
          | none => none
          | some (v, r3) =>
            match skipWs r3 with
            | ',' :: r4 =>
              match readMembers fuel r4 with
              | some (ms, r5) => some ((key, v) :: ms, r5)
              | none => none
            | '}' :: r4 => some ([(key, v)], r4)
            | _ => none
        | _ => none
    | _ => none

/-- Fuel-driven JSON reader: one or more array elements, followed by `]`. -/
def readElems : Nat → List Char → Option (List Json × List Char)
  | 0, _ => none
  | fuel + 1, cs =>
    match readVal fuel cs with
    | none => none
    | some (v, r1) =>
      match skipWs r1 with
      | ',' :: r2 =>
        match readElems fuel r2 with
        | some (es, r3) => some (v :: es, r3)
        | none => none
      | ']' :: r2 => some ([v], r2)
      | _ => none

end

/-- Parse a whole JSON document (models the parsing side of
`encoding/json.Unmarshal`). -/
def jsonParse (s : String) : Option Json :=
  match readVal (2 * s.data.length + 2) s.data with
  | some (j, rest) => if (skipWs rest).isEmpty then some j else none
  | none => none

/-- Lookup in a JSON object with Go map semantics: for duplicate keys the
last binding wins (as with `encoding/json` into a map or struct). -/
def lookupLast (key : String) (kvs : List (String × Json)) : Option Json :=
  kvs.foldl (fun acc kv => if kv.1 == key then some kv.2 else acc) none

/-- `encoding/json` decode of one string-typed struct field: absent keys
leave the zero value, a present key must hold a JSON string.  A
`json:"-"` field is never decoded. -/
def jsonStrField (key : String) (kvs : List (String × Json)) : Except String String :=
  if key == "-" then .ok ""
  else match lookupLast key kvs with
  | none => .ok ""
  | some (.str s) => .ok s
  | some _ => .error ("json: cannot unmarshal into string field " ++ key)

/-- Modelled from the spec: decode of a `core` wrapper field
(`JSONUint16`, `JSONTime`, `JSONBool`, ...).  These wrappers exist to
tolerate the irregular stringly-typed wire format, so they accept any
value and keep its raw text. -/
def jsonRawField (key : String) (kvs : List (String × Json)) : String :=
  if key == "-" then ""
  else match lookupLast key kvs with
  | none => ""
  | some j => j.rawText

/-- The numeric value of a list of ASCII digits. -/
def digitsToNat (ds : List Char) : Nat :=
  ds.foldl (fun a c => 10 * a + (c.toNat - 48)) 0

/-- `strconv.Atoi`: optional sign followed by one or more digits (range
overflow is irrelevant to every use in the source). -/
def parseAtoi (s : String) : Option Int :=
  match s.data with
  | [] => none
  | '-' :: ds => if isDigits ⟨ds⟩ then some (-(digitsToNat ds : Int)) else none
  | '+' :: ds => if isDigits ⟨ds⟩ then some ((digitsToNat ds : Int)) else none
  | ds => if isDigits ⟨ds⟩ then some ((digitsToNat ds : Int)) else none

/-- `strings.NewReplacer("entity.", "", "contact.", "").Replace`
(src/unnamed/part_000:399-400, src/unnamed/part_001:280-281): scan the
raw text left to right, deleting every occurrence of the synthetic key
prefixes `entity.` and `contact.` (the two patterns start with distinct
characters, so the source's two replacer orders coincide). -/
def stripAux : Nat → List Char → List Char
  | 0, cs => cs
  | fuel + 1, cs =>
    if "entity.".data.isPrefixOf cs then stripAux fuel (cs.drop 7)
    else if "contact.".data.isPrefixOf cs then stripAux fuel (cs.drop 8)
    else match cs with
      | [] => []
      | c :: rest => c :: stripAux fuel rest

/-- The synthetic-prefix text substitution applied to a raw success body
before structural parsing. -/
def stripSynthetic (s : String) : String :=
  ⟨stripAux s.data.length s.data⟩

/-- `strings.NewReplacer("customer.", "").Replace`
(src/customer/types.go:702-703): delete every occurrence of the
synthetic `customer.` key prefix from the raw text. -/
def stripCustomerAux : Nat → List Char → List Char
  | 0, cs => cs
  | fuel + 1, cs =>
    if "customer.".data.isPrefixOf cs then stripCustomerAux fuel (cs.drop 9)
    else match cs with
      | [] => []
      | c :: rest => c :: stripCustomerAux fuel rest

/-- The `customer.` text substitution of customer's `Search`. -/
def stripCustomer (s : String) : String :=
  ⟨stripCustomerAux s.data.length s.data⟩

/-- `encoding/json.Unmarshal` of one JSON value into contact's `Detail`
(as performed on each search/default record): the value must be an
object; each string field is read from its `json` wire name, wrapper
fields keep raw text. -/
def unmarshalContactDetail (j : Json) : Except String ContactDetail :=
  match j with
  | .obj kvs => do
    let fID ← jsonStrField "entityid" kvs
    let fTyp ← jsonStrField "type" kvs
    let fCustomerID ← jsonStrField "customerid" kvs
    let fStatusSystem ← jsonStrField "currentstatus" kvs
    let fStatusRegistry ← jsonStrField "contactstatus" kvs
    let fParentKey ← jsonStrField "parentkey" kvs
    let fName ← jsonStrField "name" kvs
    let fEmail ← jsonStrField "emailaddr" kvs
    let fCompany ← jsonStrField "company" kvs
    let fAddress ← jsonStrField "address1" kvs
    let fAddressLine2 ← jsonStrField "address2" kvs
    let fAddressLine3 ← jsonStrField "address3" kvs
    let fCity ← jsonStrField "city" kvs
    let fState ← jsonStrField "state" kvs
    let fCountryCode ← jsonStrField "country" kvs
    let fZipcode ← jsonStrField "zip" kvs
    let fPhoneCountryCode ← jsonStrField "telnocc" kvs
    let fPhone ← jsonStrField "telno" kvs
    let fFaxCountryCode ← jsonStrField "faxnocc" kvs
    let fFax ← jsonStrField "faxno" kvs
    let fClassName ← jsonStrField "classname" kvs
    let fClassKey ← jsonStrField "classkey" kvs
    let fEntityActionID ← jsonStrField "eaqid" kvs
    let fContactID ← jsonStrField "contactid" kvs
    let fEntityTypeID ← jsonStrField "entitytypeid" kvs
    let fDescription ← jsonStrField "description" kvs
    .ok { ID := fID, typ := fTyp, CustomerID := fCustomerID,
          StatusSystem := fStatusSystem, StatusRegistry := fStatusRegistry,
          ParentKey := fParentKey, Name := fName, Email := fEmail,
          Company := fCompany, Address := fAddress,
          AddressLine2 := fAddressLine2, AddressLine3 := fAddressLine3,
          City := fCity, State := fState, CountryCode := fCountryCode,
          Zipcode := fZipcode, PhoneCountryCode := fPhoneCountryCode,
          Phone := fPhone, FaxCountryCode := fFaxCountryCode, Fax := fFax,
          ClassName := fClassName, ClassKey := fClassKey,
          EntityActionID := fEntityActionID,
          ActionCompleted := jsonRawField "actioncompleted" kvs,
          ContactID := fContactID, EntityTypeID := fEntityTypeID,
          Description := fDescription,
          TimeCreation := jsonRawField "creationdt" kvs,
          TimeCreationRegistry := jsonRawField "timestamp" kvs,
          IsDesignatedAgent := jsonRawField "designated-agent" kvs,
          WhoisValidity := jsonRawField "whoisValidity" kvs }
  | _ => .error "json: cannot unmarshal into contact.Detail"

/-- Modelled from the spec: `core.JSONStatusResponse` (not under src/) is
the error envelope shape `{"status": ..., "message": ...}`. -/
structure JSONStatusResponse where
  status : String := ""
  message : String := ""
deriving DecidableEq, Repr

/-- `json.Unmarshal(rawBody, &core.JSONStatusResponse{})`: the body must
be a JSON object whose `status`/`message` members, when present, are
strings; absent members stay empty. -/
def parseStatusResponse (raw : String) : Except String JSONStatusResponse :=
  match jsonParse raw with
  | none => .error "json: invalid body"
  | some (.obj kvs) => do
    let s ← jsonStrField "status" kvs
    let m ← jsonStrField "message" kvs
    .ok { status := s, message := m }
  | some _ => .error "json: cannot unmarshal into JSONStatusResponse"

/-- `json.Unmarshal` of the `result` fragment into `[]contact.Detail`:
`null` leaves the nil slice, an array decodes element-wise, anything
else fails. -/
def unmarshalContactList (j : Json) : Except String (List ContactDetail) :=
  match j with
  | .lit "null" => .ok []
  | .arr es => es.mapM unmarshalContactDetail
  | _ => .error "json: cannot unmarshal into []contact.Detail"

/-- contact's `SearchResult` (src/unnamed/part_001:625-630). -/
structure ContactSearchResult where
  RequestedLimit : Nat
  RequestedOffset : Nat
  TotalMatched : Int
  Contacts : List ContactDetail
deriving Repr

/-- The key loop of contact's `Search` (src/unnamed/part_000:410-422):
iterate the decoded `map[string]core.JSONBytes`.  The map has unique
keys and each arm writes a distinct variable, so the loop is the pair of
lookups below: `recsindb` is parsed with `strconv.Atoi`, defaulting to 0
on failure; `result` is decoded into the record slice, aborting the
whole decode on failure. -/
def contactSearchScan (entries : List (String × Json)) : Except String (Int × List ContactDetail) :=
  let numMatched : Int :=
    match lookupLast "recsindb" entries with
    | some v =>
      match parseAtoi v.rawText with
      | some n => n
      | none => 0
    | none => 0
  match lookupLast "result" entries with
  | none => .ok (numMatched, [])
  | some v =>
    match unmarshalContactList v with
    | .error e => .error e
    | .ok ds => .ok (numMatched, ds)

/-- contact's `Search` (src/unnamed/part_000:364-430), from the point the
transport returns: guard offset/limit, then either decode the error
envelope and surface its lower-cased message (non-success status), or
strip synthetic prefixes, parse the body as a string-keyed map, and scan
it for bookkeeping and result keys. -/
def contactSearchRespond (offset limit statusCode : Nat) (rawBody : String) :
    Except String ContactSearchResult :=
  if offset == 0 || limit == 0 then .error "offset or limit must greater than zero"
  else if statusCode != 200 then
    match parseStatusResponse rawBody with
    | .error e => .error e
    | .ok env => .error (goToLower env.message)
  else
    match jsonParse (stripSynthetic rawBody) with
    | some (.obj kvs) =>
      match contactSearchScan kvs with
      | .error e => .error e
      | .ok (n, ds) =>
        .ok { RequestedLimit := limit, RequestedOffset := offset,
              TotalMatched := n, Contacts := ds }
    | _ => .error "json: cannot unmarshal into map"

/-- customer's `Detail` record (src/customer/types.go:55-97).  All
tagged fields are strings; the `core` wrapper fields (`JSONTime`,
`JSONUint16`, `JSONFloat`, `JSONBool`) are not under src/ — modelled
from the spec as tolerant wrappers around the raw wire text; their kind
is not String, and all of them carry `query:"-"`. -/
structure CustomerDetail where
  ID : String := ""
  Username : String := ""
  ResellerID : String := ""
  ParentID : String := ""
  Name : String := ""
  Company : String := ""
  Email : String := ""
  PhoneCountryCode : String := ""
  Phone : String := ""
  AltPhoneCountryCode : String := ""
  AltPhone : String := ""
  MobileCountryCode : String := ""
  Mobile : String := ""
  FaxCountryCode : String := ""
  Fax : String := ""
  Address : String := ""
  AddressLine2 : String := ""
  AddressLine3 : String := ""
  City : String := ""
  StateID : String := ""
  State : String := ""
  OtherState : String := ""
  CountryCode : String := ""
  Zipcode : String := ""
  LanguagePreference : String := ""
  VatEurope : String := ""
  VatRussia : String := ""
  GstIndia : String := ""
  GstAustralia : String := ""
  GstNewZealand : String := ""
  GstSingapore : String := ""
  Pin : String := ""
  TimeCreation : String := ""
  Status : String := ""
  SalesContactID : String := ""
  WebsiteCount : String := ""
  TotalReceipts : String := ""
  Is2FA : String := ""
  Is2FASms : String := ""
  Is2FAGoogle : String := ""
  IsDominicanTaxConfgired : String := ""
deriving DecidableEq, Repr

/-- The reflective field view of `CustomerDetail`, in declaration order,
with each field's `query` tag and `validate` rules transcribed from the
struct tags (src/customer/types.go:55-97). -/
def CustomerDetail.fields (c : CustomerDetail) : List FieldView :=
  [ ⟨"ID", "-", [.skip], .vstr c.ID⟩,
    ⟨"Username", "username", [.omitempty, .email], .vstr c.Username⟩,
    ⟨"ResellerID", "-", [.skip], .vstr c.ResellerID⟩,
    ⟨"ParentID", "-", [.skip], .vstr c.ParentID⟩,
    ⟨"Name", "name", [.omitempty], .vstr c.Name⟩,
    ⟨"Company", "company", [.omitempty], .vstr c.Company⟩,
    ⟨"Email", "-", [.skip], .vstr c.Email⟩,
    ⟨"PhoneCountryCode", "phone-cc", [.omitempty, .lenEq 2, .number], .vstr c.PhoneCountryCode⟩,
    ⟨"Phone", "phone", [.omitempty, .number], .vstr c.Phone⟩,
    ⟨"AltPhoneCountryCode", "alt-phone-cc,omitempty", [.omitempty, .lenEq 2, .number], .vstr c.AltPhoneCountryCode⟩,
    ⟨"AltPhone", "alt-phone,omitempty", [.omitempty, .number], .vstr c.AltPhone⟩,
    ⟨"MobileCountryCode", "mobile-cc,omitempty", [.omitempty, .lenEq 2, .number], .vstr c.MobileCountryCode⟩,
    ⟨"Mobile", "mobile,omitempty", [.omitempty, .number], .vstr c.Mobile⟩,
    ⟨"FaxCountryCode", "faxnocc,omitempty", [.omitempty, .lenEq 2], .vstr c.FaxCountryCode⟩,
    ⟨"Fax", "faxno,omitempty", [.omitempty, .number], .vstr c.Fax⟩,
    ⟨"Address", "address-line-1", [.omitempty], .vstr c.Address⟩,
    ⟨"AddressLine2", "address-line-2,omitempty", [.omitempty], .vstr c.AddressLine2⟩,
    ⟨"AddressLine3", "address-line-3,omitempty", [.omitempty], .vstr c.AddressLine3⟩,
    ⟨"City", "city", [.omitempty], .vstr c.City⟩,
    ⟨"StateID", "-", [.skip], .vstr c.StateID⟩,
    ⟨"State", "state", [.omitempty], .vstr c.State⟩,
    ⟨"OtherState", "other-state,omitempty", [.omitempty], .vstr c.OtherState⟩,
    ⟨"CountryCode", "country", [.omitempty, .iso3166alpha2], .vstr c.CountryCode⟩,
    ⟨"Zipcode", "zipcode", [.omitempty], .vstr c.Zipcode⟩,
    ⟨"LanguagePreference", "lang-pref", [.omitempty], .vstr c.LanguagePreference⟩,
    ⟨"VatEurope", "vat-id,omitempty", [.omitempty], .vstr c.VatEurope⟩,
    ⟨"VatRussia", "russia-vat-id,omitempty", [.omitempty], .vstr c.VatRussia⟩,
    ⟨"GstIndia", "indian-gst-id,omitempty", [.omitempty], .vstr c.GstIndia⟩,
    ⟨"GstAustralia", "australia-gst-id,omitempty", [.omitempty], .vstr c.GstAustralia⟩,
    ⟨"GstNewZealand", "newzealand-gst-id,omitempty", [.omitempty], .vstr c.GstNewZealand⟩,
    ⟨"GstSingapore", "singapore-gst-id,omitempty", [.omitempty], .vstr c.GstSingapore⟩,
    ⟨"Pin", "-", [.skip], .vstr c.Pin⟩,
    ⟨"TimeCreation", "-", [.skip], .vraw c.TimeCreation (c.TimeCreation == "")⟩,
    ⟨"Status", "-", [.skip], .vstr c.Status⟩,
    ⟨"SalesContactID", "-", [.skip], .vstr c.SalesContactID⟩,
    ⟨"WebsiteCount", "-", [.skip], .vraw c.WebsiteCount (c.WebsiteCount == "")⟩,
    ⟨"TotalReceipts", "-", [.skip], .vraw c.TotalReceipts (c.TotalReceipts == "")⟩,
    ⟨"Is2FA", "-", [.skip], .vraw c.Is2FA (c.Is2FA == "")⟩,
    ⟨"Is2FASms", "-", [.skip], .vraw c.Is2FASms (c.Is2FASms == "")⟩,
    ⟨"Is2FAGoogle", "-", [.skip], .vraw c.Is2FAGoogle (c.Is2FAGoogle == "")⟩,
    ⟨"IsDominicanTaxConfgired", "-", [.skip], .vraw c.IsDominicanTaxConfgired (c.IsDominicanTaxConfgired == "")⟩ ]

/-- customer's `Detail.URLValues` (src/customer/types.go:181-214): run
the validator, then walk the fields (the walk itself cannot fail). -/
def CustomerDetail.URLValues (c : CustomerDetail) : Except EncodeError (List (String × String)) :=
  match failingFields c.fields with
  | [] => .ok (customerFieldWalk c.fields)
  | e :: es => .error (.invalidFields (e :: es))

/-- The per-field action of `Detail.mergePrevious`
(src/customer/types.go:151-175), for a string-kinded field with `query`
tag `tag`: untagged fields are untouched; a zero value whose tag ends in
`omitempty` is untouched; otherwise a zero value is filled from the
previous record. -/
def mergeStr (tag cur prev : String) : String :=
  if tag == "" || tag == "-" then cur
  else if cur == "" then
    if goHasSuffix tag "omitempty" then cur else prev
  else cur

/-- customer's `Detail.mergePrevious` (src/customer/types.go:139-179):
validate the modification, then fill each zero-valued, non-`omitempty`,
tagged string field from the previous record.  Non-string fields fail
the loop's `reflect.String` kind check and pass through unchanged. -/
def CustomerDetail.mergePrevious (c prev : CustomerDetail) : Except EncodeError CustomerDetail :=
  match failingFields c.fields with
  | e :: es => .error (.invalidFields (e :: es))
  | [] => .ok
    { ID := mergeStr "-" c.ID prev.ID,
      Username := mergeStr "username" c.Username prev.Username,
      ResellerID := mergeStr "-" c.ResellerID prev.ResellerID,
      ParentID := mergeStr "-" c.ParentID prev.ParentID,
      Name := mergeStr "name" c.Name prev.Name,
      Company := mergeStr "company" c.Company prev.Company,
      Email := mergeStr "-" c.Email prev.Email,
      PhoneCountryCode := mergeStr "phone-cc" c.PhoneCountryCode prev.PhoneCountryCode,
      Phone := mergeStr "phone" c.Phone prev.Phone,
      AltPhoneCountryCode := mergeStr "alt-phone-cc,omitempty" c.AltPhoneCountryCode prev.AltPhoneCountryCode,
      AltPhone := mergeStr "alt-phone,omitempty" c.AltPhone prev.AltPhone,
      MobileCountryCode := mergeStr "mobile-cc,omitempty" c.MobileCountryCode prev.MobileCountryCode,
      Mobile := mergeStr "mobile,omitempty" c.Mobile prev.Mobile,
      FaxCountryCode := mergeStr "faxnocc,omitempty" c.FaxCountryCode prev.FaxCountryCode,
      Fax := mergeStr "faxno,omitempty" c.Fax prev.Fax,
      Address := mergeStr "address-line-1" c.Address prev.Address,
      AddressLine2 := mergeStr "address-line-2,omitempty" c.AddressLine2 prev.AddressLine2,
      AddressLine3 := mergeStr "address-line-3,omitempty" c.AddressLine3 prev.AddressLine3,
      City := mergeStr "city" c.City prev.City,
      StateID := mergeStr "-" c.StateID prev.StateID,
      State := mergeStr "state" c.State prev.State,
      OtherState := mergeStr "other-state,omitempty" c.OtherState prev.OtherState,
      CountryCode := mergeStr "country" c.CountryCode prev.CountryCode,
      Zipcode := mergeStr "zipcode" c.Zipcode prev.Zipcode,
      LanguagePreference := mergeStr "lang-pref" c.LanguagePreference prev.LanguagePreference,
      VatEurope := mergeStr "vat-id,omitempty" c.VatEurope prev.VatEurope,
      VatRussia := mergeStr "russia-vat-id,omitempty" c.VatRussia prev.VatRussia,
      GstIndia := mergeStr "indian-gst-id,omitempty" c.GstIndia prev.GstIndia,
      GstAustralia := mergeStr "australia-gst-id,omitempty" c.GstAustralia prev.GstAustralia,
      GstNewZealand := mergeStr "newzealand-gst-id,omitempty" c.GstNewZealand prev.GstNewZealand,
      GstSingapore := mergeStr "singapore-gst-id,omitempty" c.GstSingapore prev.GstSingapore,
      Pin := mergeStr "-" c.Pin prev.Pin,
      TimeCreation := c.TimeCreation,
      Status := mergeStr "-" c.Status prev.Status,
      SalesContactID := mergeStr "-" c.SalesContactID prev.SalesContactID,
      WebsiteCount := c.WebsiteCount,
      TotalReceipts := c.TotalReceipts,
      Is2FA := c.Is2FA,
      Is2FASms := c.Is2FASms,
      Is2FAGoogle := c.Is2FAGoogle,
      IsDominicanTaxConfgired := c.IsDominicanTaxConfgired }

/-- `encoding/json.Unmarshal` of one JSON value into customer's
`Detail`: the value must be an object; each string field is read from
its `json` wire name (fields tagged `json:"-"` are never decoded),
wrapper fields keep raw text. -/
def unmarshalCustomerDetail (j : Json) : Except String CustomerDetail :=
  match j with
  | .obj kvs => do
    let fID ← jsonStrField "customerid" kvs
    let fUsername ← jsonStrField "username" kvs
    let fResellerID ← jsonStrField "resellerid" kvs
    let fParentID ← jsonStrField "parentid" kvs
    let fName ← jsonStrField "name" kvs
    let fCompany ← jsonStrField "company" kvs
    let fEmail ← jsonStrField "useremail" kvs
    let fPhoneCountryCode ← jsonStrField "telnocc" kvs
    let fPhone ← jsonStrField "telno" kvs
    let fMobileCountryCode ← jsonStrField "mobilenocc" kvs
    let fMobile ← jsonStrField "mobileno" kvs
    let fAddress ← jsonStrField "address1" kvs
    let fAddressLine2 ← jsonStrField "address2" kvs
    let fAddressLine3 ← jsonStrField "address3" kvs
    let fCity ← jsonStrField "city" kvs
    let fStateID ← jsonStrField "stateid" kvs
    let fState ← jsonStrField "state" kvs
    let fCountryCode ← jsonStrField "country" kvs
    let fZipcode ← jsonStrField "zip" kvs
    let fLanguagePreference ← jsonStrField "langpref" kvs
    let fPin ← jsonStrField "pin" kvs
    let fStatus ← jsonStrField "customerstatus" kvs
    let fSalesContactID ← jsonStrField "salescontactid" kvs
    .ok { ID := fID, Username := fUsername, ResellerID := fResellerID,
          ParentID := fParentID, Name := fName, Company := fCompany,
          Email := fEmail, PhoneCountryCode := fPhoneCountryCode,
          Phone := fPhone, AltPhoneCountryCode := "", AltPhone := "",
          MobileCountryCode := fMobileCountryCode, Mobile := fMobile,
          FaxCountryCode := "", Fax := "", Address := fAddress,
          AddressLine2 := fAddressLine2, AddressLine3 := fAddressLine3,
          City := fCity, StateID := fStateID, State := fState,
          OtherState := "", CountryCode := fCountryCode,
          Zipcode := fZipcode, LanguagePreference := fLanguagePreference,
          VatEurope := "", VatRussia := "", GstIndia := "",
          GstAustralia := "", GstNewZealand := "", GstSingapore := "",
          Pin := fPin,
          TimeCreation := jsonRawField "creationdt" kvs,
          Status := fStatus, SalesContactID := fSalesContactID,
          WebsiteCount := jsonRawField "websitecount" kvs,
          TotalReceipts := jsonRawField "totalreceipts" kvs,
          Is2FA := jsonRawField "twofactorauth_enabled" kvs,
          Is2FASms := jsonRawField "twofactorsmsauth_enabled" kvs,
          Is2FAGoogle := jsonRawField "twofactorgoogleauth_enabled" kvs,
          IsDominicanTaxConfgired := jsonRawField "isDominicanTaxConfiguredByParent" kvs }
  | _ => .error "json: cannot unmarshal into customer.Detail"

/-- Modelled from the spec: `core.RgxNumber` (not under src/) recognises
the purely numeric keys that wrap one nested record each in classified
search responses. -/
def rgxNumberMatch (s : String) : Bool :=
  isDigits s

/-- customer's `SearchResult` (src/customer/types.go:111-116). -/
structure CustomerSearchResult where
  RequestedLimit : Nat
  RequestedOffset : Nat
  TotalMatched : Int
  Customers : List CustomerDetail
deriving Repr

/-- The key loop of customer's `Search` (src/customer/types.go:713-726):
iterate the decoded map; keys matching `core.RgxNumber` each wrap one
customer record (a decode failure aborts the whole decode), `recsindb`
is parsed with `strconv.Atoi`, defaulting to 0 on failure, and all other
keys are ignored.  The map has unique keys, so the loop amounts to the
lookup and the filtered traversal below. -/
def customerSearchScan (entries : List (String × Json)) : Except String (Int × List CustomerDetail) :=
  let numMatched : Int :=
    match lookupLast "recsindb" entries with
    | some v =>
      match parseAtoi v.rawText with
      | some n => n
      | none => 0
    | none => 0
  match (entries.filter fun kv => rgxNumberMatch kv.1).mapM
      (fun kv => unmarshalCustomerDetail kv.2) with
  | .error e => .error e
  | .ok ds => .ok (numMatched, ds)

/-- customer's `Search` (src/customer/types.go:667-734), from the point
the transport returns: on a non-success status decode the error
envelope strictly and surface its lower-cased message; on success strip
the synthetic `customer.` prefix, parse the body as a string-keyed map
and scan it. -/
def customerSearchRespond (offset limit statusCode : Nat) (rawBody : String) :
    Except String CustomerSearchResult :=
  if statusCode != 200 then
    match parseStatusResponse rawBody with
    | .error e => .error e
    | .ok env => .error (goToLower env.message)
  else
    match jsonParse (stripCustomer rawBody) with
    | some (.obj kvs) =>
      match customerSearchScan kvs with
      | .error e => .error e
      | .ok (n, ds) =>
        .ok { RequestedLimit := limit, RequestedOffset := offset,
              TotalMatched := n, Customers := ds }
    | _ => .error "json: cannot unmarshal into map"

/-- The observable outcome of customer's `Modify` up to the transport
call: either the method returned a nil error early (swallowing an
upstream failure), or it reaches `CallAPI` with the given parameters. -/
inductive ModifyOutcome where
  | returnedNilEarly
  | callsModifyAPI (data : List (String × String))
deriving DecidableEq, Repr

/-- customer's `Modify` (src/customer/types.go:620-634) up to the
transport call, with the outcome of the prior `Details` fetch supplied
as a parameter: a failed fetch, a failed merge and a failed encode each
make the method return a **nil** error immediately (`return nil` on all
three error branches); otherwise the merged record's parameters plus
`customer-id` are sent. -/
def customerModify (detailsResult : Except String CustomerDetail) (modification : CustomerDetail) :
    ModifyOutcome :=
  match detailsResult with
  | .error _ => .returnedNilEarly
  | .ok customerBefore =>
    match modification.mergePrevious customerBefore with
    | .error _ => .returnedNilEarly
    | .ok merged =>
      match merged.URLValues with
      | .error _ => .returnedNilEarly
      | .ok data => .callsModifyAPI (data ++ [("customer-id", customerBefore.ID)])

/-- One decimal digit as a character. -/
def digitChar (n : Nat) : Char :=
  Char.ofNat (48 + n)

/-- Fuel-driven decimal rendering (most significant digit first). -/
def itoaAux : Nat → Nat → List Char
  | 0, _ => []
  | fuel + 1, n =>
    if n < 10 then [digitChar n]
    else itoaAux fuel (n / 10) ++ [digitChar (n % 10)]

/-- `strconv.Itoa` on a natural number. -/
def itoa (n : Nat) : String :=
  ⟨itoaAux (n + 1) n⟩

/-- The pair-emitting loop of `entityAttributes.URLValues` and
`entityAttributes.CopyTo` (src/pricing/type.go:32-54 and 68-88): each
map entry, taken in iteration order, gets the next 1-based index `i` and
adds `attr-name{i}=key` and `attr-value{i}=value` under one lock
acquisition. -/
def attrPairs (i : Nat) : List (String × String) → List (String × String)
  | [] => []
  | (k, v) :: rest =>
    ("attr-name" ++ itoa i, k) :: ("attr-value" ++ itoa i, v) :: attrPairs (i + 1) rest

/-- `entityAttributes.URLValues` (src/pricing/type.go:68-88), with the
map's (arbitrary) iteration order supplied as a list of entries. -/
def entityAttributesURLValues (entries : List (String × String)) : List (String × String) :=
  attrPairs 1 entries

/-- `entityAttributes.CopyTo` (src/pricing/type.go:32-54): the same
pairs appended to an existing parameter set. -/
def entityAttributesCopyTo (dest entries : List (String × String)) : List (String × String) :=
  dest ++ attrPairs 1 entries

/-- `url.Values.Get`: the first value stored under a key. -/
def valuesGet (key : String) (vs : List (String × String)) : Option String :=
  (vs.find? fun kv => kv.1 == key).map (·.2)

/-- A server echo of encoded parameters as a JSON success body: the
exact key/value pairs as one JSON object. -/
def echoObj (ps : List (String × String)) : Json :=
  .obj (ps.map fun kv => (kv.1, .str kv.2))

/-- Encode a contact record, then decode a server echo of the produced
key/value pairs back into the record type (the round trip of spec §8.3). -/
def echoRoundTrip (c : ContactDetail) : Option ContactDetail :=
  match ContactDetail.URLValues c with
  | .ok ps => (unmarshalContactDetail (echoObj ps)).toOption
  | .error _ => none

/-- Every `query`-tagged field of a contact `Detail` is non-zero
("fully populated"): the sixteen tagged fields of
src/unnamed/part_001:570-602. -/
def ContactDetail.allTaggedSet (c : ContactDetail) : Prop :=
  c.typ ≠ "" ∧ c.CustomerID ≠ "" ∧ c.Name ≠ "" ∧ c.Email ≠ "" ∧
  c.Company ≠ "" ∧ c.Address ≠ "" ∧ c.AddressLine2 ≠ "" ∧
  c.AddressLine3 ≠ "" ∧ c.City ≠ "" ∧ c.State ≠ "" ∧ c.CountryCode ≠ "" ∧
  c.Zipcode ≠ "" ∧ c.PhoneCountryCode ≠ "" ∧ c.Phone ≠ "" ∧
  c.FaxCountryCode ≠ "" ∧ c.Fax ≠ ""

/-- Every `query`-tagged field of a customer `Detail` is non-zero: the
twenty-six tagged fields of src/customer/types.go:55-97. -/
def CustomerDetail.allTaggedSet (c : CustomerDetail) : Prop :=
  c.Username ≠ "" ∧ c.Name ≠ "" ∧ c.Company ≠ "" ∧
  c.PhoneCountryCode ≠ "" ∧ c.Phone ≠ "" ∧ c.AltPhoneCountryCode ≠ "" ∧
  c.AltPhone ≠ "" ∧ c.MobileCountryCode ≠ "" ∧ c.Mobile ≠ "" ∧
  c.FaxCountryCode ≠ "" ∧ c.Fax ≠ "" ∧ c.Address ≠ "" ∧
  c.AddressLine2 ≠ "" ∧ c.AddressLine3 ≠ "" ∧ c.City ≠ "" ∧
  c.State ≠ "" ∧ c.OtherState ≠ "" ∧ c.CountryCode ≠ "" ∧
  c.Zipcode ≠ "" ∧ c.LanguagePreference ≠ "" ∧ c.VatEurope ≠ "" ∧
  c.VatRussia ≠ "" ∧ c.GstIndia ≠ "" ∧ c.GstAustralia ≠ "" ∧
  c.GstNewZealand ≠ "" ∧ c.GstSingapore ≠ ""

instance (c : ContactDetail) : Decidable c.allTaggedSet := by
  unfold ContactDetail.allTaggedSet; infer_instance

instance (c : CustomerDetail) : Decidable c.allTaggedSet := by
  unfold CustomerDetail.allTaggedSet; infer_instance

/-- A validate-tag rule set that marks a field optional: no rules,
`validate:"-"`, or an `omitempty` clause. -/
def optionalRules (rs : List VRule) : Prop :=
  rs = [] ∨ rs = [.skip] ∨ .omitempty ∈ rs

instance (rs : List VRule) : Decidable (optionalRules rs) := by
  unfold optionalRules; infer_instance

/-- The relation between a field of the modification record and the
corresponding field of the merge result that claim C4 asserts: name and
tag agree, and a field that is non-zero, untagged, or not string-kinded
keeps its value. -/
def mergeFramePred (fc fd : FieldView) : Prop :=
  fd.name = fc.name ∧ fd.tag = fc.tag ∧
  ((fc.val.isZero = false ∨ fc.tag = "" ∨ fc.tag = "-" ∨ fc.val.kind ≠ .str) → fd.val = fc.val)

/-- A fully populated, valid contact record used as a concrete input. -/
def exContact : ContactDetail :=
  { typ := "Contact", CustomerID := "123", Name := "John", Email := "j@ex.com",
    Company := "Acme", Address := "1 Road", AddressLine2 := "Suite 2",
    AddressLine3 := "Floor 3", City := "Metro", State := "CA",
    CountryCode := "US", Zipcode := "10001", PhoneCountryCode := "1",
    Phone := "5551234", FaxCountryCode := "1", Fax := "5551235" }

/-- `exContact` with its required `Name` field left zero. -/
def exContactNoName : ContactDetail :=
  { exContact with Name := "" }

/-- A fully populated, valid customer record used as a concrete input. -/
def exCustomerFull : CustomerDetail :=
  { Username := "a@b.co", Name := "N", Company := "C",
    PhoneCountryCode := "91", Phone := "123456",
    AltPhoneCountryCode := "92", AltPhone := "1234",
    MobileCountryCode := "93", Mobile := "12345",
    FaxCountryCode := "94", Fax := "123457", Address := "A1",
    AddressLine2 := "A2", AddressLine3 := "A3", City := "Metro",
    State := "CA", OtherState := "OS", CountryCode := "US",
    Zipcode := "10001", LanguagePreference := "en", VatEurope := "V1",
    VatRussia := "V2", GstIndia := "G1", GstAustralia := "G2",
    GstNewZealand := "G3", GstSingapore := "G4" }

/-- A sparse modification record (only `Name` set) used as a concrete
input to the merge. -/
def exCustomerMod : CustomerDetail :=
  { Name := "NewName" }

/-- A previously fetched customer record used as the merge source. -/
def exCustomerPrev : CustomerDetail :=
  { ID := "42", Username := "p@ex.com", Name := "OldName", Company := "OldCo",
    PhoneCountryCode := "91", Phone := "7654321", City := "OldCity",
    State := "OldState", CountryCode := "FR", Zipcode := "75001",
    Address := "Old Road", LanguagePreference := "fr",
    TimeCreation := "2020-01-01", WebsiteCount := "3" }

/-- The merge of `exCustomerMod` with `exCustomerPrev`: zero-valued
non-`omitempty` tagged fields are filled from the previous record. -/
def exCustomerMerged : CustomerDetail :=
  { Username := "p@ex.com", Name := "NewName", Company := "OldCo",
    PhoneCountryCode := "91", Phone := "7654321", Address := "Old Road",
    City := "OldCity", State := "OldState", CountryCode := "FR",
    Zipcode := "75001", LanguagePreference := "fr" }

/-- The concrete prefix-stripping body of spec §8.5. -/
def exPrefixBody : String :=
  "\x7b\"contact.name\":\"A\",\"entity.city\":\"B\"\x7d"

/-- The concrete bookkeeping-tolerance body of spec §8.6. -/
def exRecsBody : String :=
  "\x7b\"recsindb\":\"not-a-number\",\"result\":[]\x7d"

/-- A concrete error-envelope body. -/
def exErrBody : String :=
  "\x7b\"status\":\"ERROR\",\"message\":\"Access Denied\"\x7d"

/-- A concrete all-optional record shape (the optional fields of
contact's `Criteria`), with every field zero. -/
def exOptionalFields : List FieldView :=
  [ ⟨"Name", "name,optional", [.omitempty], .vstr ""⟩,
    ⟨"Statuses", "status,optional", [.omitempty], .vstrs []⟩,
    ⟨"IsIncludeInvalid", "include-invalid,optional", [.omitempty], .vbool false⟩ ]

end Logicboxes

deriving instance DecidableEq for Except

namespace Logicboxes

/-- C3: for every raw response body and every status code other than the
success code (200), customer's `Search` decoder returns an error and
never a payload record; when the body parses as the error envelope the
error is the envelope message lower-cased, and otherwise the parse
failure itself is returned. -/
theorem customer_search_error_envelope_precedence
    (offset limit sc : Nat) (body : String) (hsc : sc ≠ 200) :
    (∀ r, customerSearchRespond offset limit sc body ≠ .ok r) ∧
    (∀ env, parseStatusResponse body = .ok env →
      customerSearchRespond offset limit sc body = .error (goToLower env.message)) ∧
    (∀ e, parseStatusResponse body = .error e →
      customerSearchRespond offset limit sc body = .error e) := by
  have hb : (sc != 200) = true := bne_iff_ne.mpr hsc
  refine ⟨?_, ?_, ?_⟩
  · intro r hr
    unfold customerSearchRespond at hr
    rw [if_pos hb] at hr
    rcases hps : parseStatusResponse body with e | env <;> rw [hps] at hr <;>
      exact Except.noConfusion hr
  · intro env hps
    unfold customerSearchRespond
    rw [if_pos hb, hps]
  · intro e hps
    unfold customerSearchRespond
    rw [if_pos hb, hps]

/-- Witness for C3 at status 500 with a concrete error envelope. -/
theorem customer_search_error_envelope_precedence_witness :
    (500 ≠ 200) ∧
    ((∀ r, customerSearchRespond 1 10 500 exErrBody ≠ .ok r) ∧
     (∀ env, parseStatusResponse exErrBody = .ok env →
       customerSearchRespond 1 10 500 exErrBody = .error (goToLower env.message)) ∧
     (∀ e, parseStatusResponse exErrBody = .error e →
       customerSearchRespond 1 10 500 exErrBody = .error e)) :=
  ⟨by decide, customer_search_error_envelope_precedence 1 10 500 exErrBody (by decide)⟩

/-- C10: when fetching the previous record, merging it into the
modification, or encoding the modification fails, customer's `Modify`
returns a nil error (it reports success without performing the
modification call) instead of propagating the failure. -/
theorem customer_modify_swallows_failures
    (dr : Except String CustomerDetail) (m : CustomerDetail) :
    (∀ e, dr = .error e → customerModify dr m = .returnedNilEarly) ∧
    (∀ b, dr = .ok b → (∃ err, m.mergePrevious b = .error err) →
      customerModify dr m = .returnedNilEarly) ∧
    (∀ b d, dr = .ok b → m.mergePrevious b = .ok d →
      (∃ err, d.URLValues = .error err) →
      customerModify dr m = .returnedNilEarly) := by
  refine ⟨?_, ?_, ?_⟩
  · intro e he; subst he; rfl
  · intro b hb h
    obtain ⟨err, herr⟩ := h
    subst hb
    simp only [customerModify]
    rw [herr]
  · intro b d hb hd h
    obtain ⟨err, herr⟩ := h
    subst hb
    simp only [customerModify, hd, herr]

/-- Witness for C10: a failed `Details` fetch makes `Modify` return nil. -/
theorem customer_modify_swallows_failures_witness :
    ((Except.error "network" : Except String CustomerDetail) = .error "network") ∧
    customerModify (.error "network") exCustomerMod = .returnedNilEarly :=
  ⟨rfl, (customer_modify_swallows_failures (.error "network") exCustomerMod).1 "network" rfl⟩

lemma mem_failingFields_of {fs : List FieldView} {f : FieldView} (hf : f ∈ fs)
    (hfail : rulesPass f.rules f.val = false) : f.name ∈ failingFields fs := by
  unfold failingFields
  exact List.mem_filterMap.mpr ⟨f, hf, by simp [hfail]⟩

lemma contact_urlvalues_error_of_failing (c : ContactDetail) {n : String}
    (hn : n ∈ failingFields c.fields) :
    ContactDetail.URLValues c = .error (.invalidFields (failingFields c.fields)) := by
  unfold ContactDetail.URLValues
  rcases hl : failingFields c.fields with _ | ⟨e, es⟩
  · rw [hl] at hn; cases hn
  · rfl

lemma contact_missing_field_case (c : ContactDetail) (f : FieldView) (hf : f ∈ c.fields)
    (hfail : rulesPass f.rules f.val = false) :
    (∃ names, ContactDetail.URLValues c = .error (.invalidFields names) ∧ f.name ∈ names) ∧
    (∀ ps, ContactDetail.URLValues c ≠ .ok ps) := by
  have hmem := mem_failingFields_of hf hfail
  have herr := contact_urlvalues_error_of_failing c hmem
  exact ⟨⟨_, herr, hmem⟩, fun ps h => by rw [herr] at h; cases h⟩

/-- C1: if any tagged, non-optional, string-kinded field of a contact
`Detail` holds its zero value (the empty string), `Detail.URLValues`
returns an error naming that field (the validator lists every failing
field, and every non-optional tagged field of this record carries
`required`) and returns no parameter set — never a partial one. -/
theorem contact_urlvalues_missing_required (c : ContactDetail) (f : FieldView)
    (hf : f ∈ c.fields)
    (htag1 : f.tag ≠ "") (htag2 : f.tag ≠ "-")
    (hopt : goHasSuffix f.tag ",optional" = false)
    (hkind : f.val.kind = .str)
    (hzero : f.val.isZero = true) :
    (∃ names, ContactDetail.URLValues c = .error (.invalidFields names) ∧ f.name ∈ names) ∧
    (∀ ps, ContactDetail.URLValues c ≠ .ok ps) := by
  simp only [ContactDetail.fields, List.mem_cons, List.not_mem_nil, or_false] at hf
  rcases hf with rfl|rfl|rfl|rfl|rfl|rfl|rfl|rfl|rfl|rfl|rfl|rfl|rfl|rfl|rfl|rfl|rfl|rfl|rfl|rfl|rfl|rfl|rfl|rfl|rfl|rfl|rfl|rfl|rfl|rfl|rfl
  all_goals try dsimp only at htag2 hopt hzero
  all_goals first
    | exact absurd rfl htag2
    | exact absurd hopt (by decide)
    | exact contact_missing_field_case c _ (by simp [ContactDetail.fields])
        (by simp only [GoValue.isZero, beq_iff_eq] at hzero
            simp [rulesPass, ruleHolds, GoValue.isZero, GoValue.asString, isDigits, hzero])

/-- Witness for C1: a record whose required `Name` is left empty. -/
theorem contact_urlvalues_missing_required_witness :
    ((⟨"Name", "name", [.required, .maxLen 255], .vstr exContactNoName.Name⟩ : FieldView)
        ∈ exContactNoName.fields) ∧
    ((∃ names, ContactDetail.URLValues exContactNoName = .error (.invalidFields names) ∧
        "Name" ∈ names) ∧
     (∀ ps, ContactDetail.URLValues exContactNoName ≠ .ok ps)) :=
  ⟨by decide,
   contact_urlvalues_missing_required exContactNoName
     ⟨"Name", "name", [.required, .maxLen 255], .vstr exContactNoName.Name⟩
     (by decide) (by decide) (by decide) (by decide) (by decide) (by decide)⟩

lemma mergeStr_nonzero {tag s p : String} (h : s ≠ "") : mergeStr tag s p = s := by
  have hb : (s == "") = false := by simpa using h
  simp [mergeStr, hb]

lemma mergeStr_dash (s p : String) : mergeStr "-" s p = s := rfl

/-- C4: whenever `mergePrevious` succeeds, every field of the result
relates to the corresponding field of the modification by
`mergeFramePred`: the merge never overwrites a non-zero value, never
touches untagged/internal fields (`query` tag empty or `-`), and leaves
every non-string-kinded field unchanged (only string fields are ever
copied from the previous record). -/
theorem customer_merge_frame (c prev d : CustomerDetail)
    (h : c.mergePrevious prev = .ok d) :
    List.Forall₂ mergeFramePred c.fields d.fields := by
  unfold CustomerDetail.mergePrevious at h
  rcases hv : failingFields c.fields with _ | ⟨e, es⟩
  case cons => rw [hv] at h; simp at h
  case nil =>
    rw [hv] at h
    injection h with h
    subst h
    simp only [CustomerDetail.fields]
    repeat' refine List.Forall₂.cons ?_ ?_
    all_goals try exact List.Forall₂.nil
    all_goals refine ⟨rfl, rfl, ?_⟩
    all_goals intro hcase
    all_goals first
      | rfl
      | (rcases hcase with hz | hz | hz | hz
         · exact congrArg GoValue.vstr (mergeStr_nonzero (by simpa [GoValue.isZero] using hz))
         · dsimp only at hz; exact absurd hz (by decide)
         · dsimp only at hz; exact absurd hz (by decide)
         · exact absurd rfl hz)

/-- Witness for C4 at a concrete modification/previous pair. -/
theorem customer_merge_frame_witness :
    exCustomerMod.mergePrevious exCustomerPrev = .ok exCustomerMerged ∧
    List.Forall₂ mergeFramePred exCustomerMod.fields exCustomerMerged.fields :=
  ⟨by decide, customer_merge_frame exCustomerMod exCustomerPrev exCustomerMerged (by decide)⟩

/-- C5: a valid modification record whose tagged fields are all already
non-zero is returned unchanged by `mergePrevious`, whatever the previous
record holds. -/
theorem customer_merge_identity (c prev : CustomerDetail)
    (hvalid : failingFields c.fields = [])
    (hset : c.allTaggedSet) :
    c.mergePrevious prev = .ok c := by
  unfold CustomerDetail.mergePrevious
  rw [hvalid]
  obtain ⟨h1, h2, h3, h4, h5, h6, h7, h8, h9, h10, h11, h12, h13,
    h14, h15, h16, h17, h18, h19, h20, h21, h22, h23, h24, h25, h26⟩ := hset
  simp only [mergeStr_dash, mergeStr_nonzero h1, mergeStr_nonzero h2,
    mergeStr_nonzero h3, mergeStr_nonzero h4, mergeStr_nonzero h5,
    mergeStr_nonzero h6, mergeStr_nonzero h7, mergeStr_nonzero h8,
    mergeStr_nonzero h9, mergeStr_nonzero h10, mergeStr_nonzero h11,
    mergeStr_nonzero h12, mergeStr_nonzero h13, mergeStr_nonzero h14,
    mergeStr_nonzero h15, mergeStr_nonzero h16, mergeStr_nonzero h17,
    mergeStr_nonzero h18, mergeStr_nonzero h19, mergeStr_nonzero h20,
    mergeStr_nonzero h21, mergeStr_nonzero h22, mergeStr_nonzero h23,
    mergeStr_nonzero h24, mergeStr_nonzero h25, mergeStr_nonzero h26]

/-- Witness for C5 at a fully set, valid modification record. -/
theorem customer_merge_identity_witness :
    failingFields exCustomerFull.fields = [] ∧ exCustomerFull.allTaggedSet ∧
    exCustomerFull.mergePrevious exCustomerPrev = .ok exCustomerFull :=
  ⟨by decide, by decide,
   customer_merge_identity exCustomerFull exCustomerPrev (by decide) (by decide)⟩

lemma rulesPass_of_optional {rs : List VRule} {v : GoValue}
    (hr : optionalRules rs) (hz : v.isZero = true) : rulesPass rs v = true := by
  rcases hr with rfl | rfl | hmem
  · simp [rulesPass]
  · simp [rulesPass, ruleHolds]
  · simp [rulesPass, hmem, hz]

lemma criteriaFieldWalk_nil : ∀ fs : List FieldView,
    (∀ f ∈ fs, f.tag = "" ∨ f.tag = "-" ∨ goHasSuffix f.tag ",optional" = true) →
    (∀ f ∈ fs, f.val.isZero = true) →
    criteriaFieldWalk fs = [] := by
  intro fs
  induction fs with
  | nil => intro _ _; rfl
  | cons f rest ih =>
    intro hopt hzero
    have ht := hopt f (List.mem_cons_self f rest)
    have hz := hzero f (List.mem_cons_self f rest)
    have hrest := ih (fun g hg => hopt g (List.mem_cons_of_mem f hg))
      (fun g hg => hzero g (List.mem_cons_of_mem f hg))
    have hcond : ((f.tag == "" || f.tag == "-") ||
        (f.val.isZero && goHasSuffix f.tag ",optional")) = true := by
      rcases ht with h | h | h
      · simp [h]
      · simp [h]
      · simp [hz, h]
    simp only [criteriaFieldWalk]
    rw [if_pos hcond]
    exact hrest

/-- C9: a record whose tagged fields are all marked optional (in both
the `query` tag and the validate tag) encodes, when all-zero, to an
empty parameter set with no error — both through `Criteria.URLValues`
and through the attribute-list encoder on an empty map. -/
theorem all_optional_zero_encodes_empty (fs : List FieldView)
    (hopt : ∀ f ∈ fs, f.tag = "" ∨ f.tag = "-" ∨ goHasSuffix f.tag ",optional" = true)
    (hrules : ∀ f ∈ fs, optionalRules f.rules)
    (hzero : ∀ f ∈ fs, f.val.isZero = true) :
    criteriaURLValues fs = .ok [] ∧ entityAttributesURLValues [] = [] := by
  constructor
  · have hfail : failingFields fs = [] := by
      unfold failingFields
      exact List.filterMap_eq_nil_iff.mpr fun f hf => by
        simp [rulesPass_of_optional (hrules f hf) (hzero f hf)]
    unfold criteriaURLValues
    rw [hfail, criteriaFieldWalk_nil fs hopt hzero]
  · rfl

/-- Witness for C9 at a concrete all-optional, all-zero record. -/
theorem all_optional_zero_encodes_empty_witness :
    (∀ f ∈ exOptionalFields, f.tag = "" ∨ f.tag = "-" ∨
      goHasSuffix f.tag ",optional" = true) ∧
    (∀ f ∈ exOptionalFields, optionalRules f.rules) ∧
    (∀ f ∈ exOptionalFields, f.val.isZero = true) ∧
    (criteriaURLValues exOptionalFields = .ok [] ∧ entityAttributesURLValues [] = []) :=
  ⟨by decide, by decide, by decide,
   all_optional_zero_encodes_empty exOptionalFields (by decide) (by decide) (by decide)⟩

/-- C8: when a classified contact search response carries a `recsindb`
value that does not parse as an integer, decoding succeeds with a
total-match-count of 0 (and whatever records the `result` key holds)
instead of returning an error. -/
theorem contact_search_recsindb_tolerance
    (offset limit : Nat) (body : String) (kvs : List (String × Json)) (jv : Json)
    (ds : List ContactDetail)
    (ho : offset ≠ 0) (hl : limit ≠ 0)
    (hparse : jsonParse (stripSynthetic body) = some (.obj kvs))
    (hrecs : lookupLast "recsindb" kvs = some jv)
    (hbad : parseAtoi jv.rawText = none)
    (hres : (lookupLast "result" kvs = none ∧ ds = []) ∨
      (∃ rv, lookupLast "result" kvs = some rv ∧ unmarshalContactList rv = .ok ds)) :
    contactSearchRespond offset limit 200 body =
      .ok { RequestedLimit := limit, RequestedOffset := offset,
            TotalMatched := 0, Contacts := ds } := by
  have ho' : (offset == 0) = false := by simpa using ho
  have hl' : (limit == 0) = false := by simpa using hl
  unfold contactSearchRespond
  rw [if_neg (by simp [ho', hl']), if_neg (by decide), hparse]
  rcases hres with ⟨hnone, rfl⟩ | ⟨rv, hsome, hok⟩
  · simp only [contactSearchScan, hrecs, hbad, hnone]
  · simp only [contactSearchScan, hrecs, hbad, hsome, hok]

/-- Witness for C8 at the concrete body of spec §8.6. -/
theorem contact_search_recsindb_tolerance_witness :
    jsonParse (stripSynthetic exRecsBody) =
      some (.obj [("recsindb", .str "not-a-number"), ("result", .arr [])]) ∧
    contactSearchRespond 1 10 200 exRecsBody =
      .ok { RequestedLimit := 10, RequestedOffset := 1, TotalMatched := 0, Contacts := [] } :=
  ⟨rfl,
   contact_search_recsindb_tolerance 1 10 exRecsBody
     [("recsindb", .str "not-a-number"), ("result", .arr [])] (.str "not-a-number") []
     (by decide) (by decide) rfl rfl rfl (Or.inr ⟨.arr [], rfl, rfl⟩)⟩

/-- C7: the success-decoding path removes the synthetic prefixes
`contact.` and `entity.` from the raw text before structural parsing,
so the body `{"contact.name":"A","entity.city":"B"}` decodes against
the contact record (wire names `name`, `city`) to a record with
`Name = "A"` and `City = "B"`. -/
theorem decoder_strips_synthetic_prefixes :
    stripSynthetic exPrefixBody = "\x7b\"name\":\"A\",\"city\":\"B\"\x7d" ∧
    jsonParse (stripSynthetic exPrefixBody) =
      some (.obj [("name", .str "A"), ("city", .str "B")]) ∧
    ∃ d, unmarshalContactDetail (.obj [("name", .str "A"), ("city", .str "B")]) = .ok d ∧
      d.Name = "A" ∧ d.City = "B" :=
  ⟨by decide, rfl, _, rfl, rfl, rfl⟩

/-- Counterexample for C2: `exContact` is fully populated and valid, yet
encoding it and decoding the server echo of those exact pairs loses its
`CustomerID` (the `query` wire name `customer-id` differs from the
`json` wire name `customerid`), so the round trip is not the identity on
every tagged string field. -/
theorem contact_roundtrip_counterexample :
    failingFields exContact.fields = [] ∧ exContact.allTaggedSet ∧
    exContact.CustomerID = "123" ∧
    (echoRoundTrip exContact).map (fun d => d.CustomerID) = some "" := by
  decide

/-- C2 (amended): encoding a fully populated valid contact record and
decoding a server echo of those exact key/value pairs restores exactly
the tagged string fields whose `json` wire name coincides with their
`query` wire name (`Type`, `Name`, `Company`, `City`, `State`,
`CountryCode`); the remaining tagged string fields come back at their
zero value. -/
theorem contact_roundtrip_amended (c : ContactDetail)
    (hvalid : failingFields c.fields = [])
    (hfull : c.allTaggedSet) :
    ∃ d, echoRoundTrip c = some d ∧
      (d.typ = c.typ ∧ d.Name = c.Name ∧ d.Company = c.Company ∧
       d.City = c.City ∧ d.State = c.State ∧ d.CountryCode = c.CountryCode) ∧
      (d.CustomerID = "" ∧ d.Email = "" ∧ d.Address = "" ∧ d.AddressLine2 = "" ∧
       d.AddressLine3 = "" ∧ d.Zipcode = "" ∧ d.PhoneCountryCode = "" ∧
       d.Phone = "" ∧ d.FaxCountryCode = "" ∧ d.Fax = "") := by
  obtain ⟨h1, h2, h3, h4, h5, h6, h7, h8, h9, h10, h11, h12, h13, h14, h15, h16⟩ := hfull
  have q1 : (c.typ == "") = false := by simpa using h1
  have q2 : (c.CustomerID == "") = false := by simpa using h2
  have q3 : (c.Name == "") = false := by simpa using h3
  have q4 : (c.Email == "") = false := by simpa using h4
  have q5 : (c.Company == "") = false := by simpa using h5
  have q6 : (c.Address == "") = false := by simpa using h6
  have q7 : (c.AddressLine2 == "") = false := by simpa using h7
  have q8 : (c.AddressLine3 == "") = false := by simpa using h8
  have q9 : (c.City == "") = false := by simpa using h9
  have q10 : (c.State == "") = false := by simpa using h10
  have q11 : (c.CountryCode == "") = false := by simpa using h11
  have q12 : (c.Zipcode == "") = false := by simpa using h12
  have q13 : (c.PhoneCountryCode == "") = false := by simpa using h13
  have q14 : (c.Phone == "") = false := by simpa using h14
  have q15 : (c.FaxCountryCode == "") = false := by simpa using h15
  have q16 : (c.Fax == "") = false := by simpa using h16
  have hps : ContactDetail.URLValues c = .ok
      [("type", c.typ), ("customer-id", c.CustomerID), ("name", c.Name),
       ("email", c.Email), ("company", c.Company), ("address-line-1", c.Address),
       ("address-line-2", c.AddressLine2), ("address-line-3", c.AddressLine3),
       ("city", c.City), ("state", c.State), ("country", c.CountryCode),
       ("zipcode", c.Zipcode), ("phone-cc", c.PhoneCountryCode),
       ("phone", c.Phone), ("fax-cc", c.FaxCountryCode), ("fax", c.Fax)] := by
    unfold ContactDetail.URLValues
    rw [hvalid]
    simp [ContactDetail.fields, detailFieldWalk, GoValue.isZero, GoValue.kind,
      GoValue.asString, q1, q2, q3, q4, q5, q6, q7, q8, q9, q10, q11, q12,
      q13, q14, q15, q16]
    decide
  refine ⟨{ typ := c.typ, Name := c.Name, Company := c.Company, City := c.City,
            State := c.State, CountryCode := c.CountryCode }, ?_, ?_, ?_⟩
  · unfold echoRoundTrip
    rw [hps]
    rfl
  · exact ⟨rfl, rfl, rfl, rfl, rfl, rfl⟩
  · exact ⟨rfl, rfl, rfl, rfl, rfl, rfl, rfl, rfl, rfl, rfl⟩

/-- Witness for the amended C2 at `exContact`. -/
theorem contact_roundtrip_amended_witness :
    failingFields exContact.fields = [] ∧ exContact.allTaggedSet ∧
    (∃ d, echoRoundTrip exContact = some d ∧
      (d.typ = exContact.typ ∧ d.Name = exContact.Name ∧
       d.Company = exContact.Company ∧ d.City = exContact.City ∧
       d.State = exContact.State ∧ d.CountryCode = exContact.CountryCode) ∧
      (d.CustomerID = "" ∧ d.Email = "" ∧ d.Address = "" ∧ d.AddressLine2 = "" ∧
       d.AddressLine3 = "" ∧ d.Zipcode = "" ∧ d.PhoneCountryCode = "" ∧
       d.Phone = "" ∧ d.FaxCountryCode = "" ∧ d.Fax = "")) :=
  ⟨by decide, by decide, contact_roundtrip_amended exContact (by decide) (by decide)⟩

lemma toNat_digitChar (n : Nat) (h : n < 10) : (digitChar n).toNat = 48 + n := by
  interval_cases n <;> decide

lemma digitsToNat_append (l : List Char) (c : Char) :
    digitsToNat (l ++ [c]) = 10 * digitsToNat l + (c.toNat - 48) := by
  simp [digitsToNat, List.foldl_append]

lemma digitsToNat_itoaAux (fuel : Nat) : ∀ n, n < fuel →
    digitsToNat (itoaAux fuel n) = n := by
  induction fuel with
  | zero => intro n h; omega
  | succ fuel ih =>
    intro n h
    rw [itoaAux]
    by_cases h10 : n < 10
    · rw [if_pos h10]
      simp [digitsToNat, toNat_digitChar n h10]
    · rw [if_neg h10]
      rw [digitsToNat_append]
      rw [ih (n / 10) (by omega)]
      rw [toNat_digitChar (n % 10) (by omega)]
      omega

lemma itoa_inj {a b : Nat} (h : itoa a = itoa b) : a = b := by
  have hdata : itoaAux (a + 1) a = itoaAux (b + 1) b := congrArg String.data h
  have ha := digitsToNat_itoaAux (a + 1) a (by omega)
  have hb := digitsToNat_itoaAux (b + 1) b (by omega)
  rw [← ha, ← hb, hdata]

lemma string_append_data (s t : String) : (s ++ t).data = s.data ++ t.data := rfl

lemma ne_attr_name_value (a b : String) : ("attr-name" ++ a) ≠ ("attr-value" ++ b) := by
  intro h
  have hd : "attr-name".data ++ a.data = "attr-value".data ++ b.data := by
    have hdata := congrArg String.data h
    rw [string_append_data, string_append_data] at hdata
    exact hdata
  have h5 := congrArg (fun l => l.get? 5) hd
  simp only at h5
  rw [List.get?_append (by decide), List.get?_append (by decide)] at h5
  exact absurd h5 (by decide)

lemma attr_key_inj (p : String) {i j : Nat} (h : p ++ itoa i = p ++ itoa j) : i = j := by
  apply itoa_inj
  have hd := congrArg String.data h
  rw [string_append_data, string_append_data] at hd
  exact String.ext (List.append_cancel_left hd)

lemma valuesGet_cons_self {k v : String} {rest : List (String × String)} :
    valuesGet k ((k, v) :: rest) = some v := by
  unfold valuesGet
  rw [List.find?_cons_of_pos _ (by simp)]
  rfl

lemma valuesGet_cons_ne {k q v : String} {rest : List (String × String)} (h : q ≠ k) :
    valuesGet k ((q, v) :: rest) = valuesGet k rest := by
  unfold valuesGet
  rw [List.find?_cons_of_neg _ (by simpa using h)]

lemma attrPairs_lookup : ∀ (entries : List (String × String)) (s i : Nat),
    s ≤ i → i < s + entries.length →
    valuesGet ("attr-name" ++ itoa i) (attrPairs s entries)
      = (entries.get? (i - s)).map Prod.fst ∧
    valuesGet ("attr-value" ++ itoa i) (attrPairs s entries)
      = (entries.get? (i - s)).map Prod.snd := by
  intro entries
  induction entries with
  | nil => intro s i hs hlen; simp at hlen; omega
  | cons e rest ih =>
    intro s i hs hlen
    rcases e with ⟨k, v⟩
    by_cases hi : i = s
    · subst hi
      rw [show i - i = 0 from by omega]
      constructor
      · simp only [attrPairs]
        rw [valuesGet_cons_self]
        rfl
      · simp only [attrPairs]
        rw [valuesGet_cons_ne (ne_attr_name_value _ _), valuesGet_cons_self]
        rfl
    · have hgt : s + 1 ≤ i := by omega
      have hlt : i < (s + 1) + rest.length := by
        simp only [List.length_cons] at hlen; omega
      obtain ⟨ihn, ihv⟩ := ih (s + 1) i hgt hlt
      have hneq1 : ("attr-name" ++ itoa s) ≠ ("attr-name" ++ itoa i) := by
        intro heq; exact hi (attr_key_inj _ heq).symm
      have hneq2 : ("attr-value" ++ itoa s) ≠ ("attr-name" ++ itoa i) := by
        intro heq; exact ne_attr_name_value (itoa i) (itoa s) heq.symm
      have hneq3 : ("attr-name" ++ itoa s) ≠ ("attr-value" ++ itoa i) :=
        ne_attr_name_value (itoa s) (itoa i)
      have hneq4 : ("attr-value" ++ itoa s) ≠ ("attr-value" ++ itoa i) := by
        intro heq; exact hi (attr_key_inj _ heq).symm
      have hstep : i - s = (i - (s + 1)) + 1 := by omega
      constructor
      · simp only [attrPairs]
        rw [valuesGet_cons_ne hneq1, valuesGet_cons_ne hneq2, ihn, hstep]
        rfl
      · simp only [attrPairs]
        rw [valuesGet_cons_ne hneq3, valuesGet_cons_ne hneq4, ihv, hstep]
        rfl

/-- C6: for every attribute map (as its iterated entry list) and every
valid 1-based index `i`, the value stored under `attr-name{i}` and the
value stored under `attr-value{i}` in the produced parameter set come
from the same original map entry. -/
theorem attr_encoding_pairing (entries : List (String × String)) (i : Nat)
    (h1 : 1 ≤ i) (h2 : i ≤ entries.length) :
    ∃ k v, entries.get? (i - 1) = some (k, v) ∧
      valuesGet ("attr-name" ++ itoa i) (entityAttributesURLValues entries) = some k ∧
      valuesGet ("attr-value" ++ itoa i) (entityAttributesURLValues entries) = some v := by
  obtain ⟨hn, hv⟩ := attrPairs_lookup entries 1 i h1 (by omega)
  rcases hget : entries.get? (i - 1) with _ | ⟨k, v⟩
  · rw [List.get?_eq_none] at hget; omega
  · refine ⟨k, v, rfl, ?_, ?_⟩
    · unfold entityAttributesURLValues
      rw [hn, hget]
      rfl
    · unfold entityAttributesURLValues
      rw [hv, hget]
      rfl

/-- Witness for C6 on the map `{"a":"1","b":"2"}` at index 2. -/
theorem attr_encoding_pairing_witness :
    (1 ≤ 2) ∧ (2 ≤ ([("a", "1"), ("b", "2")] : List (String × String)).length) ∧
    (∃ k v, ([("a", "1"), ("b", "2")] : List (String × String)).get? 1 = some (k, v) ∧
      valuesGet ("attr-name" ++ itoa 2)
        (entityAttributesURLValues [("a", "1"), ("b", "2")]) = some k ∧
      valuesGet ("attr-value" ++ itoa 2)
        (entityAttributesURLValues [("a", "1"), ("b", "2")]) = some v) :=
  ⟨by decide, by decide,
   attr_encoding_pairing [("a", "1"), ("b", "2")] 2 (by decide) (by decide)⟩

end Logicboxes
